import Mathlib

/-!
# GSoC Hunter bot — core polling / deduplication / alerting loop

Shallow embedding of `src/index.js`. The bot's side effects (local log
lines, Discord webhook POSTs, GitHub API GETs) are modelled as an explicit
`Event` trace; network outcomes (the issue list returned by GitHub, and
whether each Discord POST succeeds) are inputs to the functions, mirroring
the nondeterminism of the environment. Timestamps are naturals
(milliseconds); issue `created_at` / `updated_at` are integers so that the
JavaScript `updated - created` subtraction keeps its sign.
-/

namespace GSOCHunter

/-- A monitored repository plus its issue filter-set (line 24-31 of
`index.js`); `filters` models the object spread into the query params. -/
structure Target where
  owner : String
  repo : String
  filters : List (String × String)
deriving DecidableEq

/-- An issue record as returned by the GitHub API, restricted to the
fields `index.js` reads.  `pull_request` is `true` when the record carries
the `pull_request` marker (i.e. it is really a PR). -/
structure Issue where
  id : ℕ
  title : String
  html_url : String
  created_at : ℤ
  updated_at : ℤ
  labels : List String
  pull_request : Bool
deriving DecidableEq

/-- A failed `axios.get`: `message` is `error.message`; `responseStatus`
is `some s` when `error.response` exists with HTTP status `s`, and `none`
for a network-level error with no response object. -/
structure FetchError where
  message : String
  responseStatus : Option ℕ
deriving DecidableEq

/-- Outcome of the GitHub fetch for one target in one cycle. -/
abbrev FetchResult := Except FetchError (List Issue)

/-- Observable effects of the loop, in program order. `fetchRequest`
records the GET issued for a target together with the `since` watermark it
carried; `systemAlert` / `issueAlert` record a Discord POST attempt with
its payload; `logInfo` / `logError` are winston log lines; `consoleError`
is a bare `console.error`. -/
inductive Event where
  | logInfo (msg : String)
  | logError (msg : String)
  | consoleError (msg : String)
  | fetchRequest (owner repo : String) (since : ℕ) (filters : List (String × String))
  | systemAlert (msg : String) (type : String) (color : ℕ)
  | issueAlert (issueId : ℕ) (title : String) (color : ℕ)
deriving DecidableEq

/-- The process-wide mutable state: the watermark `lastChecked` (line 34)
and the seen-issue set `seenIssues` (line 38). -/
structure BotState where
  lastChecked : ℕ
  seenIssues : Finset ℕ
deriving DecidableEq

/-- The severity-to-color table of `sendSystemLogToDiscord`
(lines 55-59): INFO blue, ERROR red, SUCCESS green; anything else is
absent from the table. -/
def colors (type : String) : Option ℕ :=
  if type = "INFO" then some 3447003
  else if type = "ERROR" then some 15548997
  else if type = "SUCCESS" then some 5763719
  else none

/-- The `axios.post` of the system-log embed: succeeds or throws
depending on the environment (`deliverOk`). -/
def axiosPostSystemLog (deliverOk : Bool) : Except String Unit :=
  if deliverOk then Except.ok () else Except.error "Network Error"

/-- `sendSystemLogToDiscord(message, type)` (lines 54-73): posts an embed
whose color is `colors[type] || 3447003`; a delivery failure is caught and
reported via `console.error`, so the function itself never throws — the
result is always `Except.ok` with the emitted events. -/
def sendSystemLogToDiscord (deliverOk : Bool) (message : String)
    (type : String) : Except String (List Event) :=
  let color := (colors type).getD 3447003
  match axiosPostSystemLog deliverOk with
  | Except.ok _ => Except.ok [Event.systemAlert message type color]
  | Except.error _ =>
      Except.ok [Event.systemAlert message type color,
                 Event.consoleError "Failed to send log to Discord"]

/-- The event trace of a `sendSystemLogToDiscord` call (it always returns
`ok`, see `sendSystemLogToDiscord_isOk`). -/
def systemLogEvents (deliverOk : Bool) (message : String)
    (type : String) : List Event :=
  match sendSystemLogToDiscord deliverOk message type with
  | Except.ok evs => evs
  | Except.error _ => []

/-- Line 145: `(updated - created) < 120000` — the brand-new
classification of `sendIssueAlert`. -/
def isBrandNew (issue : Issue) : Bool :=
  issue.updated_at - issue.created_at < 120000

/-- Line 147: the alert heading, selected by the classification. -/
def alertTitle (issue : Issue) (target : Target) : String :=
  if isBrandNew issue then "🔥 New Issue: " ++ target.repo
  else "🏷️ New Label/Update: " ++ target.repo

/-- Line 155: green for brand-new, yellow for updates. -/
def alertColor (issue : Issue) : ℕ :=
  if isBrandNew issue then 5763719 else 16776960

/-- `sendIssueAlert(issue, target)` (lines 140-166): one Discord POST per
issue; a delivery failure is caught and logged (`logger.error`) and the
function returns normally either way. -/
def sendIssueAlert (deliverOk : Bool) (issue : Issue)
    (target : Target) : List Event :=
  let ev := Event.issueAlert issue.id (alertTitle issue target) (alertColor issue)
  if deliverOk then [ev]
  else [ev, Event.logError "Failed to send Discord alert."]

/-- The filter of lines 108-112: drop pull requests, drop identifiers
already in the seen set; the survivors are this cycle's new issues. -/
def newIssuesOf (seen : Finset ℕ) (data : List Issue) : List Issue :=
  data.filter (fun issue =>
    if issue.pull_request then false
    else if issue.id ∈ seen then false
    else true)

/-- The per-issue loop of lines 116-120: mark the issue seen, then attempt
the alert. `oracle id` tells whether the Discord POST for issue `id`
succeeds. -/
def processNewIssues (oracle : ℕ → Bool) (target : Target)
    (seen : Finset ℕ) : List Issue → Finset ℕ × List Event
  | [] => (seen, [])
  | issue :: rest =>
      let seen1 := insert issue.id seen
      let evs := sendIssueAlert (oracle issue.id) issue target
      let r := processNewIssues oracle target seen1 rest
      (r.1, evs ++ r.2)

/-- The reset check of lines 124-127: clear everything once the set's
size strictly exceeds 5000, logging the reset; otherwise leave it alone. -/
def maybeReset (seen : Finset ℕ) : Finset ℕ × List Event :=
  if 5000 < seen.card then
    (∅, [Event.logInfo "🧹 Cleared internal issue cache to save memory."])
  else (seen, [])

/-- `fetchIssuesForRepo(target)` (lines 91-138). The GET is issued with
`since = lastChecked`; on success the response is filtered, each new issue
is marked seen and alerted, then the reset check runs. On failure the
error is logged locally, and escalated to Discord only when a response
object exists with status ≠ 404; the state is left untouched (the reset
check sits inside the `try`). -/
def fetchIssuesForRepo (oracle : ℕ → Bool) (sysDeliverOk : Bool)
    (st : BotState) (target : Target) (result : FetchResult) :
    BotState × List Event :=
  let reqEvent := Event.fetchRequest target.owner target.repo st.lastChecked target.filters
  match result with
  | Except.ok data =>
      let newIssues := newIssuesOf st.seenIssues data
      let foundEvs :=
        if 0 < newIssues.length then
          [Event.logInfo ("🚨 Found " ++ toString newIssues.length ++
            " new issues in " ++ target.repo)]
        else []
      let loop := processNewIssues oracle target st.seenIssues newIssues
      let reset := maybeReset loop.1
      ({ st with seenIssues := reset.1 },
       reqEvent :: (foundEvs ++ loop.2 ++ reset.2))
  | Except.error e =>
      let errorMsg := "Error checking " ++ target.owner ++ "/" ++ target.repo ++
        ": " ++ e.message
      let escalateEvs :=
        match e.responseStatus with
        | some status =>
            if status = 404 then []
            else systemLogEvents sysDeliverOk errorMsg "ERROR"
        | none => []
      (st, reqEvent :: (Event.logError errorMsg :: escalateEvs))

/-- The `for (const target of TARGETS)` loop of lines 83-85, threading the
state through the targets in registry order. `fetchOf` gives the GitHub
response each target's GET receives this cycle. -/
def processTargets (oracle : ℕ → Bool) (sysDeliverOk : Bool)
    (fetchOf : Target → FetchResult) (st : BotState) :
    List Target → BotState × List Event
  | [] => (st, [])
  | t :: ts =>
      let r1 := fetchIssuesForRepo oracle sysDeliverOk st t (fetchOf t)
      let r2 := processTargets oracle sysDeliverOk fetchOf r1.1 ts
      (r2.1, r1.2 ++ r2.2)

/-- `checkRepos()` (lines 76-89): capture the scan-start timestamp `now`
before any fetch, process every target sequentially, then — and only
then — assign the watermark to the captured timestamp. -/
def checkRepos (oracle : ℕ → Bool) (sysDeliverOk : Bool) (now : ℕ)
    (targets : List Target) (fetchOf : Target → FetchResult)
    (st : BotState) : BotState × List Event :=
  let startEvs := [Event.logInfo "🔄 Starting scan cycle..."]
  let currentScanTime := now
  let r := processTargets oracle sysDeliverOk fetchOf st targets
  ({ r.1 with lastChecked := currentScanTime }, startEvs ++ r.2)

/-- A cycle's environment: the scan-start timestamp and the fetch outcome
of each target. -/
structure CycleInput where
  now : ℕ
  fetchOf : Target → FetchResult

/-- A run of successive scan cycles (the `setInterval(checkRepos, …)`
schedule), returning the state and event trace after each cycle. -/
def runCycles (oracle : ℕ → Bool) (sysDeliverOk : Bool)
    (targets : List Target) (st : BotState) :
    List CycleInput → List (BotState × List Event)
  | [] => []
  | c :: cs =>
      let r := checkRepos oracle sysDeliverOk c.now targets c.fetchOf st
      r :: runCycles oracle sysDeliverOk targets r.1 cs

/-- The `TARGETS` registry (lines 24-31). -/
def TARGETS : List Target :=
  [⟨"oaiedu", "devops-opensource-agent", []⟩,
   ⟨"oaiedu", "assessment-platform-admin", []⟩,
   ⟨"oaiedu", "dora-quizz", []⟩,
   ⟨"learningequality", "studio", [("labels", "help wanted")]⟩,
   ⟨"learningequality", "kolibri", [("labels", "help wanted")]⟩,
   ⟨"learningequality", "kolibri-design-system", [("labels", "help wanted")]⟩]

/-- The log line emitted by the seen-set reset. -/
def clearLogEvent : Event :=
  Event.logInfo "🧹 Cleared internal issue cache to save memory."

/-- Recognizes a Discord system-log POST attempt. -/
def Event.isSystemAlert : Event → Bool
  | Event.systemAlert _ _ _ => true
  | _ => false

/-- Recognizes a Discord per-issue alert POST attempt. -/
def Event.isIssueAlert : Event → Bool
  | Event.issueAlert _ _ _ => true
  | _ => false

/-- Recognizes a GitHub GET request. -/
def Event.isFetchRequest : Event → Bool
  | Event.fetchRequest _ _ _ _ => true
  | _ => false

/-- Recognizes an alert POST for the given issue identifier. -/
def Event.alertFor (id : ℕ) : Event → Bool
  | Event.issueAlert i _ _ => i == id
  | _ => false

/-- All events of a run, in order. -/
def allEvents : List (BotState × List Event) → List Event
  | [] => []
  | r :: rest => r.2 ++ allEvents rest

/-- Dedup invariant for one identifier over one program segment: if `id`
was seen when the segment started, the segment emits no alert for `id`
and `id` is still seen when it ends. -/
def SeenInvariant (id : ℕ) (seen0 : Finset ℕ) (evs : List Event)
    (seen1 : Finset ℕ) : Prop :=
  (id ∈ seen0 → evs.filter (Event.alertFor id) = []) ∧
  (id ∈ seen0 → id ∈ seen1)

/-- At-most-once invariant for one identifier over one program segment:
in addition to `SeenInvariant`, the segment alerts `id` at most once, and
if it does alert `id` then `id` is seen when the segment ends. -/
def AlertInvariant (id : ℕ) (seen0 : Finset ℕ) (evs : List Event)
    (seen1 : Finset ℕ) : Prop :=
  SeenInvariant id seen0 evs seen1 ∧
  (evs.filter (Event.alertFor id)).length ≤ 1 ∧
  (1 ≤ (evs.filter (Event.alertFor id)).length → id ∈ seen1)

/-! ### Concrete inputs used by witnesses and counterexamples -/

/-- A non-PR issue with identifier 0, created and last updated at the
same instant. -/
def cIssue0 : Issue := ⟨0, "bug", "https://e/0", 0, 0, [], false⟩

/-- A non-PR issue with identifier 7. -/
def cIssue7 : Issue := ⟨7, "feat", "https://e/7", 0, 0, [], false⟩

/-- A PR record with identifier 9. -/
def cPR9 : Issue := ⟨9, "pr", "https://e/9", 0, 0, [], true⟩

/-- A first example target. -/
def cTarget1 : Target := ⟨"o", "r1", []⟩

/-- A second example target. -/
def cTarget2 : Target := ⟨"o", "r2", []⟩

/-- A state whose seen set holds the 5001 identifiers 0..5000 — one past
the reset threshold — with identifier 0 among them. -/
def c1State : BotState := ⟨0, Finset.range 5001⟩

/-- Per-target fetch outcomes: target `r2` returns the already-seen issue
0; every other target returns an empty page. -/
def c1FetchOf : Target → FetchResult := fun t =>
  if t.repo = "r2" then Except.ok [cIssue0] else Except.ok []

/-- One scan cycle over `[cTarget1, cTarget2]` from `c1State`: processing
`r1` trips the size-5001 reset check and clears the set mid-cycle, so the
`r2` fetch re-alerts identifier 0 in the same cycle. -/
def c1Run : BotState × List Event :=
  checkRepos (fun _ => true) true 1 [cTarget1, cTarget2] c1FetchOf c1State

/-! ## Basic shape lemmas -/

theorem systemLogEvents_eq (deliverOk : Bool) (msg type : String) :
    systemLogEvents deliverOk msg type =
      Event.systemAlert msg type ((colors type).getD 3447003) ::
        (if deliverOk then [] else [Event.consoleError "Failed to send log to Discord"]) := by
  cases deliverOk <;> rfl

theorem sendSystemLogToDiscord_isOk (deliverOk : Bool) (msg type : String) :
    sendSystemLogToDiscord deliverOk msg type =
      Except.ok (systemLogEvents deliverOk msg type) := by
  cases deliverOk <;> rfl

theorem sendIssueAlert_eq (deliverOk : Bool) (issue : Issue) (target : Target) :
    sendIssueAlert deliverOk issue target =
      Event.issueAlert issue.id (alertTitle issue target) (alertColor issue) ::
        (if deliverOk then [] else [Event.logError "Failed to send Discord alert."]) := by
  cases deliverOk <;> rfl

theorem maybeReset_of_card_le (s : Finset ℕ) (h : s.card ≤ 5000) :
    maybeReset s = (s, []) := by
  simp [maybeReset, Nat.not_lt.mpr h]

theorem maybeReset_of_lt (s : Finset ℕ) (h : 5000 < s.card) :
    maybeReset s = (∅, [clearLogEvent]) := by
  simp [maybeReset, h, clearLogEvent]

theorem fetch_ok_eq (oracle : ℕ → Bool) (sysOk : Bool) (st : BotState)
    (target : Target) (data : List Issue) :
    fetchIssuesForRepo oracle sysOk st target (Except.ok data) =
      ({ st with seenIssues :=
          (maybeReset (processNewIssues oracle target st.seenIssues
            (newIssuesOf st.seenIssues data)).1).1 },
       Event.fetchRequest target.owner target.repo st.lastChecked target.filters ::
         ((if 0 < (newIssuesOf st.seenIssues data).length then
             [Event.logInfo ("🚨 Found " ++ toString (newIssuesOf st.seenIssues data).length ++
               " new issues in " ++ target.repo)]
           else []) ++
          (processNewIssues oracle target st.seenIssues (newIssuesOf st.seenIssues data)).2 ++
          (maybeReset (processNewIssues oracle target st.seenIssues
            (newIssuesOf st.seenIssues data)).1).2)) := by
  simp only [fetchIssuesForRepo]

theorem fetch_error_eq (oracle : ℕ → Bool) (sysOk : Bool) (st : BotState)
    (target : Target) (e : FetchError) :
    fetchIssuesForRepo oracle sysOk st target (Except.error e) =
      (st, Event.fetchRequest target.owner target.repo st.lastChecked target.filters ::
        Event.logError ("Error checking " ++ target.owner ++ "/" ++ target.repo ++
          ": " ++ e.message) ::
        (match e.responseStatus with
         | some status =>
             if status = 404 then []
             else systemLogEvents sysOk
               ("Error checking " ++ target.owner ++ "/" ++ target.repo ++
                 ": " ++ e.message) "ERROR"
         | none => [])) := by
  simp only [fetchIssuesForRepo]

theorem processNewIssues_mono (oracle : ℕ → Bool) (target : Target)
    (issues : List Issue) :
    ∀ seen : Finset ℕ, ∀ id ∈ seen, id ∈ (processNewIssues oracle target seen issues).1 := by
  induction issues with
  | nil => intro seen id h; simpa [processNewIssues] using h
  | cons issue rest ih =>
      intro seen id h
      simp only [processNewIssues]
      exact ih _ id (Finset.mem_insert_of_mem h)

theorem processNewIssues_mem_of_mem (oracle : ℕ → Bool) (target : Target)
    (issues : List Issue) :
    ∀ seen : Finset ℕ, ∀ issue ∈ issues,
      issue.id ∈ (processNewIssues oracle target seen issues).1 := by
  induction issues with
  | nil => simp
  | cons i rest ih =>
      intro seen issue h
      rcases List.mem_cons.mp h with h1 | h2
      · subst h1
        simp only [processNewIssues]
        exact processNewIssues_mono oracle target rest _ _ (Finset.mem_insert_self _ _)
      · simp only [processNewIssues]
        exact ih _ issue h2

theorem processNewIssues_count (oracle : ℕ → Bool) (target : Target)
    (issues : List Issue) (id : ℕ) :
    ∀ seen : Finset ℕ,
      ((processNewIssues oracle target seen issues).2.filter (Event.alertFor id)).length =
        (issues.map Issue.id).count id := by
  induction issues with
  | nil => simp [processNewIssues]
  | cons i rest ih =>
      intro seen
      simp only [processNewIssues, List.filter_append, List.length_append, ih,
        List.map_cons]
      rw [sendIssueAlert_eq, List.count_cons]
      by_cases h2 : i.id = id
      · subst h2
        cases h : oracle i.id <;>
          simp [Event.alertFor, List.filter_cons, Nat.add_comm]
      · cases h : oracle i.id <;>
          simp [Event.alertFor, List.filter_cons, h2, Nat.add_comm, Ne.symm h2]

theorem processNewIssues_shape (oracle : ℕ → Bool) (target : Target)
    (issues : List Issue) :
    ∀ seen : Finset ℕ, ∀ ev ∈ (processNewIssues oracle target seen issues).2,
      (∃ i ti c, ev = Event.issueAlert i ti c) ∨
        ev = Event.logError "Failed to send Discord alert." := by
  induction issues with
  | nil => simp [processNewIssues]
  | cons i rest ih =>
      intro seen ev h
      simp only [processNewIssues, List.mem_append] at h
      rcases h with h | h
      · rw [sendIssueAlert_eq] at h
        rcases List.mem_cons.mp h with h1 | h1
        · exact Or.inl ⟨_, _, _, h1⟩
        · cases ho : oracle i.id <;> rw [ho] at h1 <;> simp at h1
          · exact Or.inr h1
      · exact ih _ ev h

theorem mem_newIssuesOf (seen : Finset ℕ) (data : List Issue) (issue : Issue) :
    issue ∈ newIssuesOf seen data ↔
      issue ∈ data ∧ issue.pull_request = false ∧ issue.id ∉ seen := by
  simp only [newIssuesOf, List.mem_filter]
  by_cases hp : issue.pull_request <;> by_cases hm : issue.id ∈ seen <;>
    simp [hp, hm]

theorem systemLogEvents_filter_eq_nil (deliverOk : Bool) (msg type : String)
    (p : Event → Bool)
    (h1 : ∀ m t c, p (Event.systemAlert m t c) = false)
    (h2 : ∀ m, p (Event.consoleError m) = false) :
    (systemLogEvents deliverOk msg type).filter p = [] := by
  rw [systemLogEvents_eq]
  cases deliverOk <;> simp [h1, h2]

theorem foundEvs_filter (c : Prop) [Decidable c] (s : String) (p : Event → Bool)
    (h : ∀ m, p (Event.logInfo m) = false) :
    (if c then [Event.logInfo s] else []).filter p = [] := by
  split <;> simp [h]

theorem fetch_lastChecked (oracle : ℕ → Bool) (sysOk : Bool) (st : BotState)
    (target : Target) (res : FetchResult) :
    (fetchIssuesForRepo oracle sysOk st target res).1.lastChecked = st.lastChecked := by
  cases res with
  | ok data => rw [fetch_ok_eq]
  | error e => rw [fetch_error_eq]

theorem fetch_error_state (oracle : ℕ → Bool) (sysOk : Bool) (st : BotState)
    (target : Target) (e : FetchError) :
    (fetchIssuesForRepo oracle sysOk st target (Except.error e)).1 = st := by
  rw [fetch_error_eq]

theorem fetch_error_no_alert (oracle : ℕ → Bool) (sysOk : Bool) (st : BotState)
    (target : Target) (e : FetchError) (id : ℕ) :
    (fetchIssuesForRepo oracle sysOk st target (Except.error e)).2.filter
      (Event.alertFor id) = [] := by
  rw [fetch_error_eq]
  simp only [List.filter_cons, Event.alertFor]
  cases e.responseStatus with
  | none => simp
  | some status =>
      by_cases h : status = 404
      · simp [h]
      · simp only [h, if_false]
        simpa using systemLogEvents_filter_eq_nil sysOk _ "ERROR" (Event.alertFor id)
          (fun _ _ _ => rfl) (fun _ => rfl)

theorem fetch_ok_noclear_card (oracle : ℕ → Bool) (sysOk : Bool) (st : BotState)
    (target : Target) (data : List Issue)
    (hnc : clearLogEvent ∉ (fetchIssuesForRepo oracle sysOk st target (Except.ok data)).2) :
    (processNewIssues oracle target st.seenIssues
      (newIssuesOf st.seenIssues data)).1.card ≤ 5000 := by
  by_contra hgt
  rw [Nat.not_le] at hgt
  rw [fetch_ok_eq, maybeReset_of_lt _ hgt] at hnc
  simp at hnc

theorem fetch_ok_noclear_seen (oracle : ℕ → Bool) (sysOk : Bool) (st : BotState)
    (target : Target) (data : List Issue)
    (hnc : clearLogEvent ∉ (fetchIssuesForRepo oracle sysOk st target (Except.ok data)).2) :
    (fetchIssuesForRepo oracle sysOk st target (Except.ok data)).1.seenIssues =
      (processNewIssues oracle target st.seenIssues (newIssuesOf st.seenIssues data)).1 := by
  rw [fetch_ok_eq, maybeReset_of_card_le _ (fetch_ok_noclear_card oracle sysOk st target data hnc)]

theorem fetch_seenInvariant (oracle : ℕ → Bool) (sysOk : Bool) (st : BotState)
    (target : Target) (res : FetchResult) (id : ℕ)
    (hnc : clearLogEvent ∉ (fetchIssuesForRepo oracle sysOk st target res).2) :
    SeenInvariant id st.seenIssues (fetchIssuesForRepo oracle sysOk st target res).2
      (fetchIssuesForRepo oracle sysOk st target res).1.seenIssues := by
  cases res with
  | error e =>
      exact ⟨fun _ => fetch_error_no_alert oracle sysOk st target e id,
        fun h => by rw [fetch_error_state]; exact h⟩
  | ok data =>
      have hseen := fetch_ok_noclear_seen oracle sysOk st target data hnc
      constructor
      · intro h
        have hcard := fetch_ok_noclear_card oracle sysOk st target data hnc
        rw [fetch_ok_eq, maybeReset_of_card_le _ hcard]
        simp only [List.filter_cons, List.filter_append, Event.alertFor,
          List.append_nil, List.filter_nil]
        rw [foundEvs_filter _ _ _ (fun _ => rfl)]
        have hcount := processNewIssues_count oracle target
          (newIssuesOf st.seenIssues data) id st.seenIssues
        have hzero : ((newIssuesOf st.seenIssues data).map Issue.id).count id = 0 := by
          rw [List.count_eq_zero]
          intro hmem
          rcases List.mem_map.mp hmem with ⟨issue, hiss, hid⟩
          rcases (mem_newIssuesOf _ _ _).mp hiss with ⟨_, _, hns⟩
          exact hns (hid ▸ h)
        have hlen := hcount.trans hzero
        simp [List.length_eq_zero.mp hlen]
      · intro h
        rw [hseen]
        exact processNewIssues_mono oracle target _ _ id h

theorem seenInvariant_comp {id : ℕ} {s0 s1 s2 : Finset ℕ} {e1 e2 : List Event}
    (h1 : SeenInvariant id s0 e1 s1) (h2 : SeenInvariant id s1 e2 s2) :
    SeenInvariant id s0 (e1 ++ e2) s2 := by
  refine ⟨fun h => ?_, fun h => h2.2 (h1.2 h)⟩
  rw [List.filter_append, h1.1 h, h2.1 (h1.2 h)]
  rfl

theorem alertInvariant_comp {id : ℕ} {s0 s1 s2 : Finset ℕ} {e1 e2 : List Event}
    (h1 : AlertInvariant id s0 e1 s1) (h2 : AlertInvariant id s1 e2 s2) :
    AlertInvariant id s0 (e1 ++ e2) s2 := by
  obtain ⟨hs1, hc1, hm1⟩ := h1
  obtain ⟨hs2, hc2, hm2⟩ := h2
  refine ⟨seenInvariant_comp hs1 hs2, ?_, ?_⟩ <;> rw [List.filter_append, List.length_append]
  · rcases Nat.eq_zero_or_pos (e1.filter (Event.alertFor id)).length with h0 | hpos
    · rw [h0]
      simpa using hc2
    · have hid : id ∈ s1 := hm1 hpos
      rw [hs2.1 hid]
      simpa using hc1
  · intro h
    rcases Nat.eq_zero_or_pos (e2.filter (Event.alertFor id)).length with h0 | hpos
    · rw [h0, Nat.add_zero] at h
      exact hs2.2 (hm1 h)
    · exact hm2 hpos

theorem maybeReset_events (s : Finset ℕ) :
    (maybeReset s).2 = [] ∨ (maybeReset s).2 = [clearLogEvent] := by
  rw [maybeReset]
  split <;> simp [clearLogEvent]

theorem fetch_ok_filter_alertFor (oracle : ℕ → Bool) (sysOk : Bool) (st : BotState)
    (target : Target) (data : List Issue) (id : ℕ)
    (hnc : clearLogEvent ∉ (fetchIssuesForRepo oracle sysOk st target (Except.ok data)).2) :
    ((fetchIssuesForRepo oracle sysOk st target (Except.ok data)).2.filter
      (Event.alertFor id)).length =
      ((newIssuesOf st.seenIssues data).map Issue.id).count id := by
  rw [fetch_ok_eq, maybeReset_of_card_le _ (fetch_ok_noclear_card oracle sysOk st target data hnc)]
  simp only [List.filter_cons, List.filter_append, Event.alertFor,
    List.append_nil, List.filter_nil]
  rw [foundEvs_filter _ _ _ (fun _ => rfl)]
  simpa using processNewIssues_count oracle target (newIssuesOf st.seenIssues data) id st.seenIssues

theorem count_newIssues_le_one (seen : Finset ℕ) (data : List Issue) (id : ℕ)
    (hnd : (data.map Issue.id).Nodup) :
    ((newIssuesOf seen data).map Issue.id).count id ≤ 1 := by
  have hsub : List.Sublist ((newIssuesOf seen data).map Issue.id) (data.map Issue.id) :=
    (List.filter_sublist _).map Issue.id
  exact le_trans (hsub.count_le id) (List.nodup_iff_count_le_one.mp hnd id)

theorem fetch_alertInvariant (oracle : ℕ → Bool) (sysOk : Bool) (st : BotState)
    (target : Target) (res : FetchResult) (id : ℕ)
    (hnc : clearLogEvent ∉ (fetchIssuesForRepo oracle sysOk st target res).2)
    (hnd : ∀ data, res = Except.ok data → (data.map Issue.id).Nodup) :
    AlertInvariant id st.seenIssues (fetchIssuesForRepo oracle sysOk st target res).2
      (fetchIssuesForRepo oracle sysOk st target res).1.seenIssues := by
  refine ⟨fetch_seenInvariant oracle sysOk st target res id hnc, ?_, ?_⟩
  · cases res with
    | error e => rw [fetch_error_no_alert]; simp
    | ok data =>
        rw [fetch_ok_filter_alertFor oracle sysOk st target data id hnc]
        exact count_newIssues_le_one _ _ _ (hnd data rfl)
  · cases res with
    | error e => rw [fetch_error_no_alert]; simp
    | ok data =>
        intro h
        rw [fetch_ok_filter_alertFor oracle sysOk st target data id hnc] at h
        have hmem : id ∈ (newIssuesOf st.seenIssues data).map Issue.id :=
          List.count_pos_iff.mp h
        rcases List.mem_map.mp hmem with ⟨issue, hiss, hid⟩
        rw [fetch_ok_noclear_seen oracle sysOk st target data hnc]
        exact hid ▸ processNewIssues_mem_of_mem oracle target _ st.seenIssues issue hiss

theorem targets_lastChecked (oracle : ℕ → Bool) (sysOk : Bool)
    (fetchOf : Target → FetchResult) (ts : List Target) :
    ∀ st : BotState, (processTargets oracle sysOk fetchOf st ts).1.lastChecked = st.lastChecked := by
  induction ts with
  | nil => intro st; rfl
  | cons t ts ih =>
      intro st
      simp only [processTargets]
      rw [ih, fetch_lastChecked]

theorem targets_seenInvariant (oracle : ℕ → Bool) (sysOk : Bool)
    (fetchOf : Target → FetchResult) (ts : List Target) (id : ℕ) :
    ∀ st : BotState, clearLogEvent ∉ (processTargets oracle sysOk fetchOf st ts).2 →
      SeenInvariant id st.seenIssues (processTargets oracle sysOk fetchOf st ts).2
        (processTargets oracle sysOk fetchOf st ts).1.seenIssues := by
  induction ts with
  | nil => intro st _; exact ⟨fun _ => rfl, fun h => h⟩
  | cons t ts ih =>
      intro st hnc
      simp only [processTargets] at hnc ⊢
      rw [List.mem_append] at hnc
      push_neg at hnc
      exact seenInvariant_comp (fetch_seenInvariant oracle sysOk st t (fetchOf t) id hnc.1) (ih _ hnc.2)

theorem targets_alertInvariant (oracle : ℕ → Bool) (sysOk : Bool)
    (fetchOf : Target → FetchResult) (ts : List Target) (id : ℕ)
    (hnd : ∀ t ∈ ts, ∀ data, fetchOf t = Except.ok data → (data.map Issue.id).Nodup) :
    ∀ st : BotState, clearLogEvent ∉ (processTargets oracle sysOk fetchOf st ts).2 →
      AlertInvariant id st.seenIssues (processTargets oracle sysOk fetchOf st ts).2
        (processTargets oracle sysOk fetchOf st ts).1.seenIssues := by
  induction ts with
  | nil =>
      intro st _
      exact ⟨⟨fun _ => rfl, fun h => h⟩, by simp [processTargets], by simp [processTargets]⟩
  | cons t ts ih =>
      intro st hnc
      simp only [processTargets] at hnc ⊢
      rw [List.mem_append] at hnc
      push_neg at hnc
      refine alertInvariant_comp (fetch_alertInvariant oracle sysOk st t (fetchOf t) id hnc.1
        (fun data h => hnd t (List.mem_cons_self t ts) data h))
        (ih (fun t' ht' data h => hnd t' (List.mem_cons_of_mem t ht') data h) _ hnc.2)

theorem checkRepos_eq (oracle : ℕ → Bool) (sysOk : Bool) (now : ℕ)
    (targets : List Target) (fetchOf : Target → FetchResult) (st : BotState) :
    checkRepos oracle sysOk now targets fetchOf st =
      ({ (processTargets oracle sysOk fetchOf st targets).1 with lastChecked := now },
       Event.logInfo "🔄 Starting scan cycle..." ::
         (processTargets oracle sysOk fetchOf st targets).2) := by
  simp only [checkRepos]
  rfl

theorem checkRepos_seenInvariant (oracle : ℕ → Bool) (sysOk : Bool) (now : ℕ)
    (targets : List Target) (fetchOf : Target → FetchResult) (st : BotState) (id : ℕ)
    (hnc : clearLogEvent ∉ (checkRepos oracle sysOk now targets fetchOf st).2) :
    SeenInvariant id st.seenIssues (checkRepos oracle sysOk now targets fetchOf st).2
      (checkRepos oracle sysOk now targets fetchOf st).1.seenIssues := by
  rw [checkRepos_eq] at hnc ⊢
  have h := targets_seenInvariant oracle sysOk fetchOf targets id st
    (fun hm => hnc (List.mem_cons_of_mem _ hm))
  exact ⟨fun hm => by rw [List.filter_cons]; simpa [Event.alertFor] using h.1 hm, h.2⟩

theorem checkRepos_alertInvariant (oracle : ℕ → Bool) (sysOk : Bool) (now : ℕ)
    (targets : List Target) (fetchOf : Target → FetchResult) (st : BotState) (id : ℕ)
    (hnc : clearLogEvent ∉ (checkRepos oracle sysOk now targets fetchOf st).2)
    (hnd : ∀ t ∈ targets, ∀ data, fetchOf t = Except.ok data → (data.map Issue.id).Nodup) :
    AlertInvariant id st.seenIssues (checkRepos oracle sysOk now targets fetchOf st).2
      (checkRepos oracle sysOk now targets fetchOf st).1.seenIssues := by
  rw [checkRepos_eq] at hnc ⊢
  have h := targets_alertInvariant oracle sysOk fetchOf targets id hnd st
    (fun hm => hnc (List.mem_cons_of_mem _ hm))
  refine ⟨⟨fun hm => by rw [List.filter_cons]; simpa [Event.alertFor] using h.1.1 hm, h.1.2⟩, ?_, ?_⟩
  · rw [List.filter_cons]
    simpa [Event.alertFor] using h.2.1
  · rw [List.filter_cons]
    simpa [Event.alertFor] using h.2.2

theorem runCycles_seenInvariant (oracle : ℕ → Bool) (sysOk : Bool)
    (targets : List Target) (cs : List CycleInput) (id : ℕ) :
    ∀ st : BotState, clearLogEvent ∉ allEvents (runCycles oracle sysOk targets st cs) →
      ∃ sfin, SeenInvariant id st.seenIssues
        (allEvents (runCycles oracle sysOk targets st cs)) sfin := by
  induction cs with
  | nil => intro st _; exact ⟨st.seenIssues, fun _ => rfl, fun h => h⟩
  | cons c cs ih =>
      intro st hnc
      simp only [runCycles, allEvents] at hnc ⊢
      rw [List.mem_append] at hnc
      push_neg at hnc
      obtain ⟨sfin, hinv⟩ := ih _ hnc.2
      exact ⟨sfin, seenInvariant_comp (checkRepos_seenInvariant oracle sysOk c.now targets c.fetchOf st id hnc.1) hinv⟩

theorem runCycles_alertInvariant (oracle : ℕ → Bool) (sysOk : Bool)
    (targets : List Target) (cs : List CycleInput) (id : ℕ)
    (hnd : ∀ c ∈ cs, ∀ t ∈ targets, ∀ data,
      c.fetchOf t = Except.ok data → (data.map Issue.id).Nodup) :
    ∀ st : BotState, clearLogEvent ∉ allEvents (runCycles oracle sysOk targets st cs) →
      ∃ sfin, AlertInvariant id st.seenIssues
        (allEvents (runCycles oracle sysOk targets st cs)) sfin := by
  induction cs with
  | nil =>
      intro st _
      exact ⟨st.seenIssues, ⟨fun _ => rfl, fun h => h⟩, by simp [runCycles, allEvents], by simp [runCycles, allEvents]⟩
  | cons c cs ih =>
      intro st hnc
      simp only [runCycles, allEvents] at hnc ⊢
      rw [List.mem_append] at hnc
      push_neg at hnc
      obtain ⟨sfin, hinv⟩ := ih (fun c' hc' => hnd c' (List.mem_cons_of_mem c hc')) _ hnc.2
      exact ⟨sfin, alertInvariant_comp (checkRepos_alertInvariant oracle sysOk c.now targets c.fetchOf st id hnc.1
        (hnd c (List.mem_cons_self c cs))) hinv⟩

theorem filter_eq_nil_of_shape {p : Event → Bool} {l : List Event}
    (h : ∀ ev ∈ l, p ev = false) : l.filter p = [] := by
  induction l with
  | nil => rfl
  | cons a l ih =>
      rw [List.filter_cons, h a (List.mem_cons_self a l)]
      exact ih (fun ev hev => h ev (List.mem_cons_of_mem a hev))

theorem systemLogEvents_shape (deliverOk : Bool) (msg type : String) :
    ∀ ev ∈ systemLogEvents deliverOk msg type,
      (∃ m t c, ev = Event.systemAlert m t c) ∨ ∃ m, ev = Event.consoleError m := by
  rw [systemLogEvents_eq]
  cases deliverOk <;> intro ev h <;> simp at h
  · rcases h with h | h
    · exact Or.inl ⟨_, _, _, h⟩
    · exact Or.inr ⟨_, h⟩
  · exact Or.inl ⟨_, _, _, h⟩

theorem processNewIssues_alert_src (oracle : ℕ → Bool) (target : Target)
    (issues : List Issue) (id : ℕ) (ti : String) (c : ℕ) :
    ∀ seen : Finset ℕ,
      Event.issueAlert id ti c ∈ (processNewIssues oracle target seen issues).2 →
      ∃ issue ∈ issues, issue.id = id := by
  induction issues with
  | nil => simp [processNewIssues]
  | cons i rest ih =>
      intro seen h
      simp only [processNewIssues, List.mem_append] at h
      rcases h with h | h
      · rw [sendIssueAlert_eq] at h
        rcases List.mem_cons.mp h with h1 | h1
        · simp only [Event.issueAlert.injEq] at h1
          exact ⟨i, List.mem_cons_self i rest, h1.1.symm⟩
        · exfalso
          cases ho : oracle i.id <;> rw [ho] at h1 <;> simp at h1
      · obtain ⟨issue, hmem, hid⟩ := ih _ h
        exact ⟨issue, List.mem_cons_of_mem i hmem, hid⟩

theorem fetch_request_since (oracle : ℕ → Bool) (sysOk : Bool) (st : BotState)
    (target : Target) (res : FetchResult) (ow rp : String) (s : ℕ)
    (fl : List (String × String))
    (h : Event.fetchRequest ow rp s fl ∈ (fetchIssuesForRepo oracle sysOk st target res).2) :
    s = st.lastChecked := by
  cases res with
  | ok data =>
      rw [fetch_ok_eq] at h
      rcases List.mem_cons.mp h with h1 | h1
      · simp only [Event.fetchRequest.injEq] at h1
        exact h1.2.2.1
      · exfalso
        rcases List.mem_append.mp h1 with h2 | h2
        · rcases List.mem_append.mp h2 with h3 | h3
          · revert h3
            split <;> simp
          · rcases processNewIssues_shape oracle target _ st.seenIssues _ h3 with
              ⟨i, ti, c, he⟩ | he <;> simp at he
        · rcases maybeReset_events (processNewIssues oracle target st.seenIssues
              (newIssuesOf st.seenIssues data)).1 with hr | hr <;>
            rw [hr] at h2 <;> simp [clearLogEvent] at h2
  | error e =>
      rw [fetch_error_eq] at h
      rcases List.mem_cons.mp h with h1 | h1
      · simp only [Event.fetchRequest.injEq] at h1
        exact h1.2.2.1
      rcases List.mem_cons.mp h1 with h2 | h2
      · exact absurd h2 (by simp)
      exfalso
      revert h2
      cases e.responseStatus with
      | none => simp
      | some status =>
          by_cases h404 : status = 404
          · simp [h404]
          · simp only [h404, if_false]
            intro h2
            rcases systemLogEvents_shape sysOk _ "ERROR" _ h2 with ⟨m, t, c, he⟩ | ⟨m, he⟩ <;>
              simp at he

theorem targets_request_since (oracle : ℕ → Bool) (sysOk : Bool)
    (fetchOf : Target → FetchResult) (ts : List Target)
    (ow rp : String) (s : ℕ) (fl : List (String × String)) :
    ∀ st : BotState,
      Event.fetchRequest ow rp s fl ∈ (processTargets oracle sysOk fetchOf st ts).2 →
      s = st.lastChecked := by
  induction ts with
  | nil => intro st h; simp [processTargets] at h
  | cons t ts ih =>
      intro st h
      simp only [processTargets, List.mem_append] at h
      rcases h with h | h
      · exact fetch_request_since oracle sysOk st t (fetchOf t) ow rp s fl h
      · exact (ih _ h).trans (fetch_lastChecked oracle sysOk st t (fetchOf t))

theorem processNewIssues_filter_eq_nil (oracle : ℕ → Bool) (target : Target)
    (issues : List Issue) (seen : Finset ℕ) (p : Event → Bool)
    (halert : ∀ i ti c, p (Event.issueAlert i ti c) = false)
    (hlog : p (Event.logError "Failed to send Discord alert.") = false) :
    (processNewIssues oracle target seen issues).2.filter p = [] := by
  refine filter_eq_nil_of_shape (fun ev hev => ?_)
  rcases processNewIssues_shape oracle target issues seen ev hev with ⟨i, ti, c, he⟩ | he
  · rw [he]; exact halert i ti c
  · rw [he]; exact hlog

theorem sendIssueAlert_filter_isIssueAlert (deliverOk : Bool) (issue : Issue)
    (target : Target) :
    (sendIssueAlert deliverOk issue target).filter Event.isIssueAlert =
      [Event.issueAlert issue.id (alertTitle issue target) (alertColor issue)] := by
  cases deliverOk <;> simp [sendIssueAlert, Event.isIssueAlert]

theorem processNewIssues_indep (o1 o2 : ℕ → Bool) (target : Target)
    (issues : List Issue) :
    ∀ seen : Finset ℕ,
      (processNewIssues o1 target seen issues).1 = (processNewIssues o2 target seen issues).1 ∧
      (processNewIssues o1 target seen issues).2.filter Event.isIssueAlert =
        (processNewIssues o2 target seen issues).2.filter Event.isIssueAlert := by
  induction issues with
  | nil => intro seen; exact ⟨rfl, rfl⟩
  | cons i rest ih =>
      intro seen
      simp only [processNewIssues, List.filter_append]
      exact ⟨(ih _).1,
        by rw [sendIssueAlert_filter_isIssueAlert, sendIssueAlert_filter_isIssueAlert, (ih _).2]⟩

theorem fetch_filter_isFetchRequest (oracle : ℕ → Bool) (sysOk : Bool) (st : BotState)
    (target : Target) (res : FetchResult) :
    (fetchIssuesForRepo oracle sysOk st target res).2.filter Event.isFetchRequest =
      [Event.fetchRequest target.owner target.repo st.lastChecked target.filters] := by
  cases res with
  | ok data =>
      rw [fetch_ok_eq]
      simp only [List.filter_cons, List.filter_append, Event.isFetchRequest]
      rw [foundEvs_filter _ _ _ (fun _ => rfl),
        processNewIssues_filter_eq_nil oracle target _ _ _ (fun _ _ _ => rfl) rfl]
      rcases maybeReset_events (processNewIssues oracle target st.seenIssues
          (newIssuesOf st.seenIssues data)).1 with hr | hr <;>
        rw [hr] <;> simp [clearLogEvent, Event.isFetchRequest]
  | error e =>
      rw [fetch_error_eq]
      simp only [List.filter_cons, Event.isFetchRequest]
      have hesc : (match e.responseStatus with
          | some status =>
              if status = 404 then []
              else systemLogEvents sysOk ("Error checking " ++ target.owner ++ "/" ++
                target.repo ++ ": " ++ e.message) "ERROR"
          | none => ([] : List Event)).filter Event.isFetchRequest = [] := by
        cases e.responseStatus with
        | none => rfl
        | some status =>
            by_cases h404 : status = 404
            · simp [h404]
            · simp only [h404, if_false]
              exact systemLogEvents_filter_eq_nil sysOk _ "ERROR" Event.isFetchRequest
                (fun _ _ _ => rfl) (fun _ => rfl)
      simpa using hesc

theorem fetch_ok_filter_isIssueAlert (oracle : ℕ → Bool) (sysOk : Bool) (st : BotState)
    (target : Target) (data : List Issue) :
    (fetchIssuesForRepo oracle sysOk st target (Except.ok data)).2.filter Event.isIssueAlert =
      (processNewIssues oracle target st.seenIssues
        (newIssuesOf st.seenIssues data)).2.filter Event.isIssueAlert := by
  rw [fetch_ok_eq]
  simp only [List.filter_cons, List.filter_append, Event.isIssueAlert]
  rw [foundEvs_filter _ _ _ (fun _ => rfl)]
  rcases maybeReset_events (processNewIssues oracle target st.seenIssues
      (newIssuesOf st.seenIssues data)).1 with hr | hr <;>
    rw [hr] <;> simp [clearLogEvent, Event.isIssueAlert]

theorem fetch_error_filter_isIssueAlert (oracle : ℕ → Bool) (sysOk : Bool) (st : BotState)
    (target : Target) (e : FetchError) :
    (fetchIssuesForRepo oracle sysOk st target (Except.error e)).2.filter
      Event.isIssueAlert = [] := by
  rw [fetch_error_eq]
  simp only [List.filter_cons, Event.isIssueAlert]
  have hesc : (match e.responseStatus with
      | some status =>
          if status = 404 then []
          else systemLogEvents sysOk ("Error checking " ++ target.owner ++ "/" ++
            target.repo ++ ": " ++ e.message) "ERROR"
      | none => ([] : List Event)).filter Event.isIssueAlert = [] := by
    cases e.responseStatus with
    | none => rfl
    | some status =>
        by_cases h404 : status = 404
        · simp [h404]
        · simp only [h404, if_false]
          exact systemLogEvents_filter_eq_nil sysOk _ "ERROR" Event.isIssueAlert
            (fun _ _ _ => rfl) (fun _ => rfl)
  simpa using hesc

theorem fetch_indep (o1 o2 : ℕ → Bool) (k1 k2 : Bool) (st : BotState)
    (target : Target) (res : FetchResult) :
    (fetchIssuesForRepo o1 k1 st target res).1 = (fetchIssuesForRepo o2 k2 st target res).1 ∧
    (fetchIssuesForRepo o1 k1 st target res).2.filter Event.isIssueAlert =
      (fetchIssuesForRepo o2 k2 st target res).2.filter Event.isIssueAlert := by
  cases res with
  | error e =>
      rw [fetch_error_state, fetch_error_state,
        fetch_error_filter_isIssueAlert, fetch_error_filter_isIssueAlert]
      exact ⟨rfl, rfl⟩
  | ok data =>
      constructor
      · rw [fetch_ok_eq, fetch_ok_eq, (processNewIssues_indep o1 o2 target _ st.seenIssues).1]
      · rw [fetch_ok_filter_isIssueAlert, fetch_ok_filter_isIssueAlert,
          (processNewIssues_indep o1 o2 target _ st.seenIssues).2]

theorem targets_indep (o1 o2 : ℕ → Bool) (k1 k2 : Bool)
    (fetchOf : Target → FetchResult) (ts : List Target) :
    ∀ st : BotState,
      (processTargets o1 k1 fetchOf st ts).1 = (processTargets o2 k2 fetchOf st ts).1 ∧
      (processTargets o1 k1 fetchOf st ts).2.filter Event.isIssueAlert =
        (processTargets o2 k2 fetchOf st ts).2.filter Event.isIssueAlert := by
  induction ts with
  | nil => intro st; exact ⟨rfl, rfl⟩
  | cons t ts ih =>
      intro st
      simp only [processTargets, List.filter_append]
      have hf := fetch_indep o1 o2 k1 k2 st t (fetchOf t)
      constructor
      · rw [hf.1, (ih _).1]
      · rw [hf.2, hf.1, (ih _).2]

theorem targets_fetchRequest_count (oracle : ℕ → Bool) (sysOk : Bool)
    (fetchOf : Target → FetchResult) (ts : List Target) :
    ∀ st : BotState,
      ((processTargets oracle sysOk fetchOf st ts).2.filter Event.isFetchRequest).length =
        ts.length := by
  induction ts with
  | nil => intro st; rfl
  | cons t ts ih =>
      intro st
      simp only [processTargets, List.filter_append, List.length_append]
      rw [fetch_filter_isFetchRequest, ih]
      simp [Nat.add_comm]

/-! ## Claims C6, C7, C10 -/

/-- C6: an alerted issue is classified brand-new iff its last-update time
minus its creation time is strictly below 120000 ms, classified updated
otherwise, and this classification selects both the alert's heading and
its color (green 5763719 for brand-new, yellow 16776960 for updated). -/
theorem brandNew_classification (deliverOk : Bool) (issue : Issue) (target : Target) :
    (isBrandNew issue = true ↔ issue.updated_at - issue.created_at < 120000) ∧
    sendIssueAlert deliverOk issue target =
      Event.issueAlert issue.id
        (if isBrandNew issue then "🔥 New Issue: " ++ target.repo
         else "🏷️ New Label/Update: " ++ target.repo)
        (if isBrandNew issue then 5763719 else 16776960) ::
        (if deliverOk then [] else [Event.logError "Failed to send Discord alert."]) := by
  refine ⟨by simp [isBrandNew], ?_⟩
  cases deliverOk <;> simp [sendIssueAlert, alertTitle, alertColor]

/-- C7: at the reset check after a target's issues are processed, a seen
set of size strictly above 5000 is cleared to ∅ with the reset logged,
while a set of size at most 5000 is left exactly as the issue loop left
it. -/
theorem seenSet_reset_policy (oracle : ℕ → Bool) (sysOk : Bool) (st : BotState)
    (target : Target) (data : List Issue) :
    (5000 < (processNewIssues oracle target st.seenIssues
        (newIssuesOf st.seenIssues data)).1.card →
      (fetchIssuesForRepo oracle sysOk st target (Except.ok data)).1.seenIssues = ∅ ∧
      clearLogEvent ∈ (fetchIssuesForRepo oracle sysOk st target (Except.ok data)).2) ∧
    ((processNewIssues oracle target st.seenIssues
        (newIssuesOf st.seenIssues data)).1.card ≤ 5000 →
      (fetchIssuesForRepo oracle sysOk st target (Except.ok data)).1.seenIssues =
        (processNewIssues oracle target st.seenIssues (newIssuesOf st.seenIssues data)).1) := by
  constructor
  · intro h
    rw [fetch_ok_eq, maybeReset_of_lt _ h]
    simp
  · intro h
    rw [fetch_ok_eq, maybeReset_of_card_le _ h]

/-- Witness for C7 at concrete inputs: from the 5001-element set
`c1State.seenIssues` an empty fetch page still trips the reset (the set
becomes empty and the clear is logged), while from the empty set the set
is left unchanged. -/
theorem seenSet_reset_policy_witness :
    ((fetchIssuesForRepo (fun _ => true) true c1State cTarget1 (Except.ok [])).1.seenIssues = ∅ ∧
      clearLogEvent ∈ (fetchIssuesForRepo (fun _ => true) true c1State cTarget1 (Except.ok [])).2) ∧
    (fetchIssuesForRepo (fun _ => true) true ⟨0, ∅⟩ cTarget1 (Except.ok [])).1.seenIssues =
      (processNewIssues (fun _ => true) cTarget1 (⟨0, ∅⟩ : BotState).seenIssues
        (newIssuesOf (⟨0, ∅⟩ : BotState).seenIssues [])).1 := by
  constructor
  · exact (seenSet_reset_policy (fun _ => true) true c1State cTarget1 []).1
      (by simp [processNewIssues, newIssuesOf, c1State, Finset.card_range])
  · exact (seenSet_reset_policy (fun _ => true) true ⟨0, ∅⟩ cTarget1 []).2
      (by simp [processNewIssues, newIssuesOf])

/-- C10: a system-log call with a severity type outside INFO/ERROR/SUCCESS
posts an embed with the default INFO blue 3447003, and the call always
returns normally (`Except.ok`) to its caller, whatever the delivery
outcome. -/
theorem systemLog_default_color (deliverOk : Bool) (msg type : String) :
    (sendSystemLogToDiscord deliverOk msg type =
      Except.ok (systemLogEvents deliverOk msg type)) ∧
    (type ≠ "INFO" → type ≠ "ERROR" → type ≠ "SUCCESS" →
      systemLogEvents deliverOk msg type =
        Event.systemAlert msg type 3447003 ::
          (if deliverOk then [] else [Event.consoleError "Failed to send log to Discord"])) := by
  refine ⟨sendSystemLogToDiscord_isOk deliverOk msg type, ?_⟩
  intro h1 h2 h3
  rw [systemLogEvents_eq]
  simp [colors, h1, h2, h3]

/-- Witness for C10 at the out-of-table severity WARN: the posted embed
carries the default blue 3447003. -/
theorem systemLog_default_color_witness :
    systemLogEvents true "disk almost full" "WARN" =
      [Event.systemAlert "disk almost full" "WARN" 3447003] := by
  have h := (systemLog_default_color true "disk almost full" "WARN").2
    (by decide) (by decide) (by decide)
  simpa using h

/-! ## Claim C2 -/

/-- Counterexample to C2 as stated: a network-level failure with no HTTP
response (`responseStatus = none`) is a transient failure, yet the code
escalates nothing to chat — the only events are the GET attempt and the
local error log; no system alert is posted. -/
theorem network_error_not_escalated :
    (fetchIssuesForRepo (fun _ => true) true ⟨0, ∅⟩ cTarget1
        (Except.error ⟨"Network Error", none⟩)).2.filter Event.isSystemAlert = [] ∧
    Event.logError "Error checking o/r1: Network Error" ∈
      (fetchIssuesForRepo (fun _ => true) true ⟨0, ∅⟩ cTarget1
        (Except.error ⟨"Network Error", none⟩)).2 := by
  decide

/-- C2 as amended: every fetch failure is logged locally; a chat ERROR
system alert is posted if and only if the failure carries an HTTP response
whose status is not 404 — so 5xx and rate-limit responses are escalated,
while 404s and response-less network errors are logged locally only. -/
theorem fetch_error_escalation (oracle : ℕ → Bool) (sysOk : Bool) (st : BotState)
    (target : Target) (e : FetchError) :
    Event.logError ("Error checking " ++ target.owner ++ "/" ++ target.repo ++
        ": " ++ e.message) ∈
      (fetchIssuesForRepo oracle sysOk st target (Except.error e)).2 ∧
    ((∃ ev ∈ (fetchIssuesForRepo oracle sysOk st target (Except.error e)).2,
        Event.isSystemAlert ev = true) ↔
      ∃ s, e.responseStatus = some s ∧ s ≠ 404) ∧
    (∀ s, e.responseStatus = some s → s ≠ 404 →
      Event.systemAlert ("Error checking " ++ target.owner ++ "/" ++ target.repo ++
          ": " ++ e.message) "ERROR" 15548997 ∈
        (fetchIssuesForRepo oracle sysOk st target (Except.error e)).2) := by
  rcases hrs : e.responseStatus with _ | s
  · rw [fetch_error_eq, hrs]
    refine ⟨by simp, ?_, ?_⟩
    · simp [Event.isSystemAlert]
    · intro s hs
      exact absurd hs (by simp)
  · by_cases h404 : s = 404
    · rw [fetch_error_eq, hrs]
      subst h404
      refine ⟨by simp, ?_, ?_⟩
      · simp [Event.isSystemAlert]
      · intro s' hs' hne
        exfalso
        exact hne (by simpa using hs'.symm)
    · rw [fetch_error_eq, hrs]
      simp only [h404, if_false]
      have hcolor : ((colors "ERROR").getD 3447003) = 15548997 := by decide
      have hmem : Event.systemAlert ("Error checking " ++ target.owner ++ "/" ++
          target.repo ++ ": " ++ e.message) "ERROR" 15548997 ∈
          systemLogEvents sysOk ("Error checking " ++ target.owner ++ "/" ++
            target.repo ++ ": " ++ e.message) "ERROR" := by
        rw [systemLogEvents_eq, hcolor]
        exact List.mem_cons_self _ _
      refine ⟨by simp, ?_, ?_⟩
      · constructor
        · intro _
          exact ⟨s, rfl, h404⟩
        · intro _
          exact ⟨_, List.mem_cons_of_mem _ (List.mem_cons_of_mem _ hmem), rfl⟩
      · intro s' _ _
        exact List.mem_cons_of_mem _ (List.mem_cons_of_mem _ hmem)

/-- Witness for C2 (amended) at a concrete 500 failure: the error is both
logged locally and escalated as a red ERROR system alert. -/
theorem fetch_error_escalation_witness :
    Event.logError ("Error checking " ++ cTarget1.owner ++ "/" ++ cTarget1.repo ++
        ": " ++ "boom") ∈
      (fetchIssuesForRepo (fun _ => true) true ⟨0, ∅⟩ cTarget1
        (Except.error ⟨"boom", some 500⟩)).2 ∧
    Event.systemAlert ("Error checking " ++ cTarget1.owner ++ "/" ++ cTarget1.repo ++
        ": " ++ "boom") "ERROR" 15548997 ∈
      (fetchIssuesForRepo (fun _ => true) true ⟨0, ∅⟩ cTarget1
        (Except.error ⟨"boom", some 500⟩)).2 := by
  refine ⟨(fetch_error_escalation (fun _ => true) true ⟨0, ∅⟩ cTarget1 ⟨"boom", some 500⟩).1, ?_⟩
  exact (fetch_error_escalation (fun _ => true) true ⟨0, ∅⟩ cTarget1
    ⟨"boom", some 500⟩).2.2 500 rfl (by decide)

/-! ## Claim C3 -/

/-- C3: after a completed cycle the watermark equals the single timestamp
captured at the start of that cycle (before any fetch), and every GET
issued within the cycle carries the watermark value that the previous
cycle left in place. -/
theorem watermark_update (oracle : ℕ → Bool) (sysOk : Bool) (now : ℕ)
    (targets : List Target) (fetchOf : Target → FetchResult) (st : BotState) :
    (checkRepos oracle sysOk now targets fetchOf st).1.lastChecked = now ∧
    (∀ ow rp s fl,
      Event.fetchRequest ow rp s fl ∈ (checkRepos oracle sysOk now targets fetchOf st).2 →
      s = st.lastChecked) := by
  rw [checkRepos_eq]
  refine ⟨rfl, ?_⟩
  intro ow rp s fl h
  rcases List.mem_cons.mp h with h1 | h1
  · exact absurd h1 (by simp)
  · exact targets_request_since oracle sysOk fetchOf targets ow rp s fl st h1

/-- Witness for C3: a one-target cycle starting from watermark 42 with
scan-start timestamp 100 ends with watermark 100, and its GET (present in
the trace) carried `since = 42`. -/
theorem watermark_update_witness :
    (checkRepos (fun _ => true) true 100 [cTarget1] (fun _ => Except.ok [])
      ⟨42, ∅⟩).1.lastChecked = 100 ∧
    (42 : ℕ) = (⟨42, ∅⟩ : BotState).lastChecked := by
  refine ⟨(watermark_update (fun _ => true) true 100 [cTarget1]
    (fun _ => Except.ok []) ⟨42, ∅⟩).1, ?_⟩
  exact (watermark_update (fun _ => true) true 100 [cTarget1]
    (fun _ => Except.ok []) ⟨42, ∅⟩).2 "o" "r1" 42 [] (by decide)

/-! ## Claim C4 -/

theorem runCycles_watermarks (oracle : ℕ → Bool) (sysOk : Bool)
    (targets : List Target) (cs : List CycleInput) :
    ∀ st : BotState,
      (runCycles oracle sysOk targets st cs).map (fun r => r.1.lastChecked) =
        cs.map CycleInput.now := by
  induction cs with
  | nil => intro st; rfl
  | cons c cs ih =>
      intro st
      simp only [runCycles, List.map_cons, ih]
      rw [checkRepos_eq]

/-- C4: across a run of completed scan cycles whose captured scan-start
timestamps are non-decreasing (the real-time clock), the watermark after
each cycle is non-decreasing: the watermark after cycle N+1 is never
earlier than the watermark after cycle N. -/
theorem watermark_monotone (oracle : ℕ → Bool) (sysOk : Bool)
    (targets : List Target) (st : BotState) (cs : List CycleInput)
    (h : List.Chain' (· ≤ ·) (cs.map CycleInput.now)) :
    List.Chain' (· ≤ ·)
      ((runCycles oracle sysOk targets st cs).map (fun r => r.1.lastChecked)) := by
  rw [runCycles_watermarks]
  exact h

/-- Witness for C4: two cycles captured at times 5 then 7 leave watermarks
5 then 7, a non-decreasing sequence. -/
theorem watermark_monotone_witness :
    List.Chain' (· ≤ ·)
      ((runCycles (fun _ => true) true [cTarget1] ⟨0, ∅⟩
        [⟨5, fun _ => Except.ok []⟩, ⟨7, fun _ => Except.ok []⟩]).map
          (fun r => r.1.lastChecked)) :=
  watermark_monotone (fun _ => true) true [cTarget1] ⟨0, ∅⟩
    [⟨5, fun _ => Except.ok []⟩, ⟨7, fun _ => Except.ok []⟩]
    (by simp [List.chain'_cons])

/-! ## Claim C5 -/

/-- C5: a fetched record is a new issue for the cycle iff it carries no
pull-request marker and its identifier is not in the seen set; and every
alert dispatched while processing a successful fetch originates from such
a record — in particular a record with `pull_request` present is never
alerted. -/
theorem pull_requests_never_alerted (oracle : ℕ → Bool) (sysOk : Bool)
    (st : BotState) (target : Target) (data : List Issue) :
    (∀ issue, issue ∈ newIssuesOf st.seenIssues data ↔
      issue ∈ data ∧ issue.pull_request = false ∧ issue.id ∉ st.seenIssues) ∧
    (∀ id ti c,
      Event.issueAlert id ti c ∈
        (fetchIssuesForRepo oracle sysOk st target (Except.ok data)).2 →
      ∃ issue ∈ data, issue.id = id ∧ issue.pull_request = false ∧
        issue.id ∉ st.seenIssues) := by
  refine ⟨fun issue => mem_newIssuesOf st.seenIssues data issue, ?_⟩
  intro id ti c h
  rw [fetch_ok_eq] at h
  rcases List.mem_cons.mp h with h1 | h1
  · exact absurd h1 (by simp)
  rcases List.mem_append.mp h1 with h2 | h2
  · rcases List.mem_append.mp h2 with h3 | h3
    · exfalso
      revert h3
      split <;> simp
    · obtain ⟨issue, hmem, hid⟩ :=
        processNewIssues_alert_src oracle target _ id ti c st.seenIssues h3
      rcases (mem_newIssuesOf _ _ _).mp hmem with ⟨hd, hp, hs⟩
      exact ⟨issue, hd, hid, hp, hs⟩
  · exfalso
    rcases maybeReset_events (processNewIssues oracle target st.seenIssues
        (newIssuesOf st.seenIssues data)).1 with hr | hr <;>
      rw [hr] at h2 <;> simp [clearLogEvent] at h2

/-- Witness for C5: in a page containing a normal issue (id 7) and a PR
record (id 9), the alert observed for id 7 is traced back to a non-PR,
unseen record of the page. -/
theorem pull_requests_never_alerted_witness :
    ∃ issue ∈ [cIssue7, cPR9], issue.id = 7 ∧ issue.pull_request = false ∧
      issue.id ∉ (⟨0, ∅⟩ : BotState).seenIssues :=
  (pull_requests_never_alerted (fun _ => true) true ⟨0, ∅⟩ cTarget1
    [cIssue7, cPR9]).2 7 "🔥 New Issue: r1" 5763719 (by decide)

/-! ## Claim C8 -/

/-- C8: a failed alert delivery is logged and the alert is attempted
exactly once; neither the resulting bot state, nor the set of alert POSTs
attempted, nor the number of GETs issued (one per target) depends on which
Discord deliveries fail — so no delivery or fetch failure blocks the rest
of the cycle or later cycles, and nothing aborts. -/
theorem failure_isolation (o1 o2 : ℕ → Bool) (k1 k2 : Bool) (now : ℕ)
    (targets : List Target) (fetchOf : Target → FetchResult) (st : BotState) :
    (∀ issue target, sendIssueAlert false issue target =
      [Event.issueAlert issue.id (alertTitle issue target) (alertColor issue),
       Event.logError "Failed to send Discord alert."]) ∧
    (checkRepos o1 k1 now targets fetchOf st).1 =
      (checkRepos o2 k2 now targets fetchOf st).1 ∧
    (checkRepos o1 k1 now targets fetchOf st).2.filter Event.isIssueAlert =
      (checkRepos o2 k2 now targets fetchOf st).2.filter Event.isIssueAlert ∧
    ((checkRepos o1 k1 now targets fetchOf st).2.filter Event.isFetchRequest).length =
      targets.length := by
  refine ⟨fun i t => rfl, ?_, ?_, ?_⟩
  · rw [checkRepos_eq, checkRepos_eq, (targets_indep o1 o2 k1 k2 fetchOf targets st).1]
  · rw [checkRepos_eq, checkRepos_eq]
    simp only [List.filter_cons, Event.isIssueAlert]
    exact (targets_indep o1 o2 k1 k2 fetchOf targets st).2
  · rw [checkRepos_eq]
    simp only [List.filter_cons, Event.isFetchRequest]
    exact targets_fetchRequest_count o1 k1 fetchOf targets st

/-! ## Claim C9 -/

theorem processNewIssues_fail_log (target : Target) (issues : List Issue)
    (h : issues ≠ []) :
    ∀ seen : Finset ℕ,
      Event.logError "Failed to send Discord alert." ∈
        (processNewIssues (fun _ => false) target seen issues).2 := by
  cases issues with
  | nil => exact absurd rfl h
  | cons i rest =>
      intro seen
      simp only [processNewIssues, List.mem_append]
      left
      rw [sendIssueAlert_eq]
      simp

/-- C9: each new issue's identifier is marked seen before its alert is
attempted, so with every delivery failing the failure is logged, every new
issue still ends the call marked seen (no clear occurring), and no later
cycle without a clear ever alerts that identifier again — delivery is
at-most-once per identifier, not at-least-once. -/
theorem marked_seen_before_alert (sysOk : Bool) (st : BotState) (target : Target)
    (data : List Issue)
    (hnc : clearLogEvent ∉
      (fetchIssuesForRepo (fun _ => false) sysOk st target (Except.ok data)).2) :
    (∀ issue ∈ newIssuesOf st.seenIssues data,
      issue.id ∈
        (fetchIssuesForRepo (fun _ => false) sysOk st target (Except.ok data)).1.seenIssues) ∧
    (0 < (newIssuesOf st.seenIssues data).length →
      Event.logError "Failed to send Discord alert." ∈
        (fetchIssuesForRepo (fun _ => false) sysOk st target (Except.ok data)).2) ∧
    (∀ oracle2 sysOk2 targets2 cycles,
      clearLogEvent ∉ allEvents (runCycles oracle2 sysOk2 targets2
        (fetchIssuesForRepo (fun _ => false) sysOk st target (Except.ok data)).1 cycles) →
      ∀ issue ∈ newIssuesOf st.seenIssues data,
        (allEvents (runCycles oracle2 sysOk2 targets2
          (fetchIssuesForRepo (fun _ => false) sysOk st target (Except.ok data)).1
            cycles)).filter (Event.alertFor issue.id) = []) := by
  have hseen := fetch_ok_noclear_seen (fun _ => false) sysOk st target data hnc
  refine ⟨?_, ?_, ?_⟩
  · intro issue hmem
    rw [hseen]
    exact processNewIssues_mem_of_mem (fun _ => false) target _ st.seenIssues issue hmem
  · intro hlen
    rw [fetch_ok_eq]
    refine List.mem_cons_of_mem _ (List.mem_append_left _ (List.mem_append_right _ ?_))
    exact processNewIssues_fail_log target _ (List.length_pos.mp hlen) st.seenIssues
  · intro oracle2 sysOk2 targets2 cycles hnc2 issue hmem
    obtain ⟨sfin, hinv⟩ := runCycles_seenInvariant oracle2 sysOk2 targets2 cycles issue.id
      _ hnc2
    refine hinv.1 ?_
    rw [hseen]
    exact processNewIssues_mem_of_mem (fun _ => false) target _ st.seenIssues issue hmem

/-- Witness for C9: with all deliveries failing, issue 7 is still marked
seen after its cycle, the failure is logged, and a later cycle fetching
the same issue again alerts nothing for id 7. -/
theorem marked_seen_before_alert_witness :
    cIssue7.id ∈
      (fetchIssuesForRepo (fun _ => false) true ⟨0, ∅⟩ cTarget1
        (Except.ok [cIssue7])).1.seenIssues ∧
    Event.logError "Failed to send Discord alert." ∈
      (fetchIssuesForRepo (fun _ => false) true ⟨0, ∅⟩ cTarget1
        (Except.ok [cIssue7])).2 ∧
    (allEvents (runCycles (fun _ => true) true [cTarget1]
      (fetchIssuesForRepo (fun _ => false) true ⟨0, ∅⟩ cTarget1
        (Except.ok [cIssue7])).1
      [⟨2, fun _ => Except.ok [cIssue7]⟩])).filter (Event.alertFor cIssue7.id) = [] := by
  have H := marked_seen_before_alert true ⟨0, ∅⟩ cTarget1 [cIssue7] (by decide)
  exact ⟨H.1 cIssue7 (by decide), H.2.1 (by decide),
    H.2.2 (fun _ => true) true [cTarget1] [⟨2, fun _ => Except.ok [cIssue7]⟩]
      (by decide) cIssue7 (by decide)⟩

/-! ## Claim C1 -/

/-- Counterexample to C1 as stated: identifier 0 is in the seen set when
the cycle starts, yet the same cycle alerts it — processing the first
target trips the size-5001 reset check and clears the set mid-cycle, so
the second target's fetch re-alerts identifier 0. -/
theorem seen_id_realerted_same_cycle :
    (0 : ℕ) ∈ c1State.seenIssues ∧
    c1Run.2.filter (Event.alertFor 0) ≠ [] := by
  constructor
  · simp [c1State]
  · have h1 : maybeReset (Finset.range 5001) = (∅, [clearLogEvent]) := by
      simp [maybeReset, Finset.card_range, clearLogEvent]
    have hfetch1 : fetchIssuesForRepo (fun _ => true) true c1State cTarget1
        (c1FetchOf cTarget1) =
        (⟨0, ∅⟩, [Event.fetchRequest "o" "r1" 0 [], clearLogEvent]) := by
      simp [c1FetchOf, cTarget1, fetchIssuesForRepo, newIssuesOf, processNewIssues,
        c1State, h1]
    have hfetch2 : fetchIssuesForRepo (fun _ => true) true ⟨0, ∅⟩ cTarget2
        (c1FetchOf cTarget2) =
        (⟨0, {0}⟩, [Event.fetchRequest "o" "r2" 0 [],
          Event.logInfo "🚨 Found 1 new issues in r2",
          Event.issueAlert 0 "🔥 New Issue: r2" 5763719]) := by decide
    have hrun : c1Run.2 = [Event.logInfo "🔄 Starting scan cycle...",
        Event.fetchRequest "o" "r1" 0 [], clearLogEvent,
        Event.fetchRequest "o" "r2" 0 [],
        Event.logInfo "🚨 Found 1 new issues in r2",
        Event.issueAlert 0 "🔥 New Issue: r2" 5763719] := by
      show (checkRepos (fun _ => true) true 1 [cTarget1, cTarget2] c1FetchOf c1State).2 = _
      simp [checkRepos, processTargets, hfetch1, hfetch2, clearLogEvent]
    rw [hrun]
    decide

/-- C1 as amended: provided no seen-set clear occurs anywhere in the run
(the reset check runs after each target, so a clear can strike mid-cycle)
and each fetched page carries distinct identifiers, an identifier already
in the seen set at the start is never alerted, and every identifier is
alerted at most once across all cycles. -/
theorem no_duplicate_alerts_without_clear (oracle : ℕ → Bool) (sysOk : Bool)
    (targets : List Target) (st : BotState) (cs : List CycleInput)
    (hnc : clearLogEvent ∉ allEvents (runCycles oracle sysOk targets st cs))
    (hnd : ∀ c ∈ cs, ∀ t ∈ targets, ∀ data,
      c.fetchOf t = Except.ok data → (data.map Issue.id).Nodup) :
    (∀ id ∈ st.seenIssues,
      (allEvents (runCycles oracle sysOk targets st cs)).filter (Event.alertFor id) = []) ∧
    (∀ id, ((allEvents (runCycles oracle sysOk targets st cs)).filter
      (Event.alertFor id)).length ≤ 1) := by
  constructor
  · intro id hid
    obtain ⟨sfin, hinv⟩ := runCycles_seenInvariant oracle sysOk targets cs id st hnc
    exact hinv.1 hid
  · intro id
    obtain ⟨sfin, hinv⟩ := runCycles_alertInvariant oracle sysOk targets cs id hnd st hnc
    exact hinv.2.1

/-- Witness for C1 (amended): a clear-free run from a state that has
already seen id 5 and one cycle fetching the fresh issue 7 alerts nothing
for id 5 and alerts id 7 at most once. -/
theorem no_duplicate_alerts_without_clear_witness :
    (allEvents (runCycles (fun _ => true) true [cTarget1] ⟨0, {5}⟩
      [⟨1, fun _ => Except.ok [cIssue7]⟩])).filter (Event.alertFor 5) = [] ∧
    ((allEvents (runCycles (fun _ => true) true [cTarget1] ⟨0, {5}⟩
      [⟨1, fun _ => Except.ok [cIssue7]⟩])).filter (Event.alertFor 7)).length ≤ 1 := by
  have H := no_duplicate_alerts_without_clear (fun _ => true) true [cTarget1]
    ⟨0, {5}⟩ [⟨1, fun _ => Except.ok [cIssue7]⟩] (by decide)
    (by
      intro c hc t ht data h
      simp only [List.mem_singleton] at hc
      subst hc
      simp only [Except.ok.injEq] at h
      subst h
      decide)
  exact ⟨H.1 5 (by decide), H.2 7⟩

end GSOCHunter
